import Mathlib

/-!
Verification of the DEM preprocessing pipeline of preprocess_dem.py.

The script reads a GeoTIFF elevation raster, resamples its first band to a
caller-requested grid shape with bilinear interpolation, computes linearly
spaced longitude and latitude axes from the raster bounds, replaces cells
numerically close to the effective nodata value by a missing marker, and
assembles a structured grid document.

Floating-point samples are modelled as rational numbers extended with a NaN
element, so that the NaN comparison semantics of numpy is captured exactly.
The bilinear resampling kernel itself lives in the external raster library
(rasterio / GDAL), not in this repository; it is modelled from the design
spec, section 4.1. Everything else is translated directly from the code of
preprocess_dem.py.
-/

/-- A floating-point sample value: NaN, or a finite value modelled as a
rational number. -/
inductive FVal where
  | nan : FVal
  | fin : ℚ → FVal
  deriving DecidableEq, Repr

/-- Addition with NaN propagation, as in IEEE arithmetic. -/
def fvAdd : FVal → FVal → FVal
  | FVal.fin a, FVal.fin b => FVal.fin (a + b)
  | _, _ => FVal.nan

/-- Scaling by a finite scalar, with NaN propagation: even a zero weight
times NaN yields NaN, as in IEEE arithmetic. -/
def fvSmul (c : ℚ) : FVal → FVal
  | FVal.fin a => FVal.fin (c * a)
  | FVal.nan => FVal.nan

/-- Linear interpolation between two samples with parameter t. -/
def fvLerp (t : ℚ) (a b : FVal) : FVal :=
  fvAdd (fvSmul (1 - t) a) (fvSmul t b)

/-- Default absolute tolerance of numpy isclose. -/
def npAtol : ℚ := 1 / 100000000

/-- Default relative tolerance of numpy isclose. -/
def npRtol : ℚ := 1 / 100000

/-- numpy isclose with default tolerances, as used at line 65 of
preprocess_dem.py: true when the absolute difference is at most
atol + rtol * abs of the second argument. Any comparison involving NaN is
false, exactly as numpy defines it with the default equal_nan = False. -/
def npIsclose (a v : FVal) : Bool :=
  match a, v with
  | FVal.fin a, FVal.fin v => decide (|a - v| ≤ npAtol + npRtol * |v|)
  | _, _ => false

/-- Cell lookup in a band, row-major; out-of-range indices give NaN (they
are never reached for positions produced by the index mapping). -/
def getCell (band : List (List FVal)) (i j : ℕ) : FVal :=
  (band.getD i []).getD j FVal.nan

/-- Modelled from the spec: the position in source index space that output
index j of an axis of size n maps to, for a source axis of size size.
Index 0 maps to source index 0 and index n-1 to source index size-1, with
a single output index mapping to source index 0. -/
def srcPos (n size : ℕ) (j : ℕ) : ℚ :=
  if n ≤ 1 then 0 else (j : ℚ) * ((size : ℚ) - 1) / ((n : ℚ) - 1)

/-- Modelled from the spec: bilinear interpolation of a band of shape
(h, w) at fractional position (x, y) in source index space, clamping the
neighbour indices to the valid range at the boundary. Each value is the
weighted average of the up-to-four nearest source cells, weights given by
the fractional distance along each axis. -/
def bilinearAt (band : List (List FVal)) (w h : ℕ) (x y : ℚ) : FVal :=
  let x0 := min (Int.toNat ⌊x⌋) (w - 1)
  let y0 := min (Int.toNat ⌊y⌋) (h - 1)
  let x1 := min (x0 + 1) (w - 1)
  let y1 := min (y0 + 1) (h - 1)
  let fx := x - (x0 : ℚ)
  let fy := y - (y0 : ℚ)
  fvLerp fy (fvLerp fx (getCell band y0 x0) (getCell band y0 x1))
            (fvLerp fx (getCell band y1 x0) (getCell band y1 x1))

/-- Modelled from the spec: resampling a band of shape (h, w) to shape
(ny, nx) by bilinear interpolation, mapping output indices linearly onto
the source index space. This models the resampled read of lines 37-41 of
preprocess_dem.py, whose kernel is the external raster library. -/
def resampleBand (band : List (List FVal)) (w h nx ny : ℕ) : List (List FVal) :=
  (List.range ny).map (fun i =>
    (List.range nx).map (fun j =>
      bilinearAt band w h (srcPos nx w j) (srcPos ny h i)))

/-- numpy linspace over the rationals: num evenly spaced points from start
to stop inclusive; a single requested point gives the start value, and
zero requested points give the empty list. Used at lines 52-53 of
preprocess_dem.py. -/
def linspace (start stop : ℚ) (num : ℕ) : List ℚ :=
  if num = 0 then []
  else if num = 1 then [start]
  else (List.range num).map (fun i : ℕ => start + (i : ℚ) * (stop - start) / ((num : ℚ) - 1))

/-- The effective nodata value, lines 55-58 of preprocess_dem.py: the
caller override when provided, otherwise the value embedded in the source
raster. -/
def effectiveNodata (nodataOverride srcNodata : Option FVal) : Option FVal :=
  match nodataOverride with
  | none => srcNodata
  | some v => some v

/-- The nodata substitution loop, lines 60-66 of preprocess_dem.py: when an
effective nodata value exists, every cell numerically close to it (numpy
isclose) becomes the missing marker (none); otherwise all cells are kept. -/
def replaceNodata (elev : List (List FVal)) (nodata : Option FVal) :
    List (List (Option FVal)) :=
  match nodata with
  | none => elev.map (fun row => row.map some)
  | some nd => elev.map (fun row => row.map (fun v =>
      if npIsclose v nd then none else some v))

/-- The source raster as decoded by the external reader: first band (row 0
is the northern edge), its shape, geographic bounds and optional embedded
nodata value. -/
structure SourceRaster where
  band : List (List FVal)
  width : ℕ
  height : ℕ
  left : ℚ
  bottom : ℚ
  right : ℚ
  top : ℚ
  nodata : Option FVal
  deriving DecidableEq, Repr

/-- The source raster band has the declared shape. -/
def WFSourceRaster (src : SourceRaster) : Prop :=
  src.band.length = src.height ∧ ∀ row ∈ src.band, row.length = src.width

/-- The structured grid document written by the script, lines 68-75 of
preprocess_dem.py. A missing elevation cell is none. -/
structure GridOutput where
  bbox : ℚ × ℚ × ℚ × ℚ
  ncols : ℕ
  nrows : ℕ
  lons : List ℚ
  lats : List ℚ
  elev : List (List (Option FVal))
  deriving DecidableEq, Repr

/-- Error taxonomy named by the design spec, section 7. The script raises
none of these itself; sourceUnreadable models a failure of the external
raster reader, propagated unchanged. The theorems below show that the
invalidDimension and emptySource conditions never arise from the code. -/
inductive DemError where
  | sourceUnreadable : DemError
  | invalidDimension : DemError
  | emptySource : DemError
  deriving DecidableEq, Repr

/-- Modelled from the spec: the resampled read of lines 37-41 of
preprocess_dem.py, performed by the external raster library. A raster with
zero width or height holds no samples and cannot be decoded and resampled
by the external reader; that failure surfaces as sourceUnreadable. A
nonempty raster is resampled to the requested shape. -/
def readBilinear (src : SourceRaster) (nx ny : ℕ) :
    Except DemError (List (List FVal)) :=
  if src.width = 0 ∨ src.height = 0 then Except.error DemError.sourceUnreadable
  else Except.ok (resampleBand src.band src.width src.height nx ny)

/-- The core of main, lines 33-78 of preprocess_dem.py: read the first band
resampled to shape (ny, nx), compute the axes by linear spacing over the
bounds, pick the effective nodata value, substitute nodata cells by the
missing marker, and assemble the output document. No validation of nx, ny
or the source shape is performed by the script itself. -/
def demMain (src : SourceRaster) (nx ny : ℕ) (nodataOverride : Option FVal) :
    Except DemError GridOutput :=
  match readBilinear src nx ny with
  | Except.error e => Except.error e
  | Except.ok band1 =>
      Except.ok
        { bbox := (src.left, src.bottom, src.right, src.top)
          ncols := nx
          nrows := ny
          lons := linspace src.left src.right nx
          lats := linspace src.top src.bottom ny
          elev := replaceNodata band1 (effectiveNodata nodataOverride src.nodata) }

deriving instance DecidableEq for Except

/-! ### Basic facts about the value model and the substitution predicate -/

/-- A finite value is always close to itself: the tolerance bound is
positive. -/
theorem npIsclose_self (v : ℚ) : npIsclose (FVal.fin v) (FVal.fin v) = true := by
  simp only [npIsclose, sub_self, abs_zero, decide_eq_true_eq, npAtol, npRtol]
  positivity

/-- No value is close to NaN: numpy isclose against NaN is always false. -/
theorem npIsclose_nan (a : FVal) : npIsclose a FVal.nan = false := by
  cases a <;> rfl

/-- Interpolating with weight zero between finite values keeps the first
value exactly. -/
theorem fvLerp_zero (a b : ℚ) : fvLerp 0 (FVal.fin a) (FVal.fin b) = FVal.fin a := by
  simp [fvLerp, fvSmul, fvAdd]

/-! ### Shape of a successful run -/

/-- A run on a source of nonzero shape succeeds and produces exactly the
document assembled at lines 68-75 of preprocess_dem.py. -/
theorem demMain_ok_shape (src : SourceRaster) (nx ny : ℕ) (ov : Option FVal)
    (hw : src.width ≠ 0) (hh : src.height ≠ 0) :
    demMain src nx ny ov = Except.ok
      { bbox := (src.left, src.bottom, src.right, src.top)
        ncols := nx
        nrows := ny
        lons := linspace src.left src.right nx
        lats := linspace src.top src.bottom ny
        elev := replaceNodata (resampleBand src.band src.width src.height nx ny)
                  (effectiveNodata ov src.nodata) } := by
  simp [demMain, readBilinear, hw, hh]

/-- Inversion: any successful run produced exactly the assembled document. -/
theorem demMain_ok_inv {src : SourceRaster} {nx ny : ℕ} {ov : Option FVal}
    {out : GridOutput} (h : demMain src nx ny ov = Except.ok out) :
    out = { bbox := (src.left, src.bottom, src.right, src.top)
            ncols := nx
            nrows := ny
            lons := linspace src.left src.right nx
            lats := linspace src.top src.bottom ny
            elev := replaceNodata (resampleBand src.band src.width src.height nx ny)
                      (effectiveNodata ov src.nodata) } := by
  by_cases hw : src.width = 0 ∨ src.height = 0
  · simp [demMain, readBilinear, hw] at h
  · rw [demMain_ok_shape src nx ny ov (by tauto) (by tauto)] at h
    exact (Except.ok.inj h).symm

/-! ### Facts about linspace -/

/-- linspace produces exactly the requested number of points. -/
theorem linspace_length (a b : ℚ) (n : ℕ) : (linspace a b n).length = n := by
  rcases n with _ | _ | n
  · rfl
  · rfl
  · have h0 : ¬ (n + 2 = 0) := by omega
    have h1 : ¬ (n + 2 = 1) := by omega
    simp only [linspace, if_neg h0, if_neg h1, List.length_map, List.length_range]

/-- Pointwise value of linspace for at least two requested points. -/
theorem linspace_getElem (a b : ℚ) {n j : ℕ} (hn : 2 ≤ n) (hj : j < n) :
    (linspace a b n)[j]? = some (a + (j : ℚ) * (b - a) / ((n : ℚ) - 1)) := by
  have h0 : ¬ n = 0 := by omega
  have h1 : ¬ n = 1 := by omega
  simp only [linspace, if_neg h0, if_neg h1, List.getElem?_map,
    List.getElem?_range hj, Option.map_some']

/-- The first linspace point is the start value. -/
theorem linspace_head (a b : ℚ) {n : ℕ} (hn : 2 ≤ n) :
    (linspace a b n)[0]? = some a := by
  rw [linspace_getElem a b hn (by omega)]
  norm_num

/-- The last linspace point is exactly the stop value. -/
theorem linspace_last (a b : ℚ) {n : ℕ} (hn : 2 ≤ n) :
    (linspace a b n)[n - 1]? = some b := by
  rw [linspace_getElem a b hn (by omega)]
  have hne : ((n : ℚ) - 1) ≠ 0 := by
    have h2 : (2 : ℚ) ≤ (n : ℚ) := by exact_mod_cast hn
    linarith
  have hc : ((n - 1 : ℕ) : ℚ) = (n : ℚ) - 1 := by
    rw [Nat.cast_sub (by omega), Nat.cast_one]
  rw [hc, mul_div_cancel_left₀ (b - a) hne]
  congr 1
  ring

/-- linspace is strictly increasing when the start is below the stop. -/
theorem linspace_pairwise_lt (a b : ℚ) (n : ℕ) (hab : a < b) :
    List.Pairwise (· < ·) (linspace a b n) := by
  rcases n with _ | _ | n
  · simp [linspace]
  · simp [linspace]
  · have h0 : ¬ (n + 2 = 0) := by omega
    have h1 : ¬ (n + 2 = 1) := by omega
    have hden : (0 : ℚ) < ((n + 2 : ℕ) : ℚ) - 1 := by
      push_cast
      linarith [Nat.cast_nonneg (α := ℚ) n]
    simp only [linspace, if_neg h0, if_neg h1]
    refine List.Pairwise.map _ ?_ (List.pairwise_lt_range _)
    intro i j hij
    have hij' : (i : ℚ) < (j : ℚ) := by exact_mod_cast hij
    have hd : (0 : ℚ) < (b - a) / (((n + 2 : ℕ) : ℚ) - 1) := div_pos (by linarith) hden
    have h2 := mul_lt_mul_of_pos_right hij' hd
    show a + (i : ℚ) * (b - a) / _ < a + (j : ℚ) * (b - a) / _
    rw [mul_div_assoc, mul_div_assoc]
    linarith

/-- linspace is strictly decreasing when the start is above the stop. -/
theorem linspace_pairwise_gt (a b : ℚ) (n : ℕ) (hab : b < a) :
    List.Pairwise (· > ·) (linspace a b n) := by
  rcases n with _ | _ | n
  · simp [linspace]
  · simp [linspace]
  · have h0 : ¬ (n + 2 = 0) := by omega
    have h1 : ¬ (n + 2 = 1) := by omega
    have hden : (0 : ℚ) < ((n + 2 : ℕ) : ℚ) - 1 := by
      push_cast
      linarith [Nat.cast_nonneg (α := ℚ) n]
    simp only [linspace, if_neg h0, if_neg h1]
    refine List.Pairwise.map _ ?_ (List.pairwise_lt_range _)
    intro i j hij
    have hij' : (i : ℚ) < (j : ℚ) := by exact_mod_cast hij
    have hd : (b - a) / (((n + 2 : ℕ) : ℚ) - 1) < 0 :=
      div_neg_of_neg_of_pos (by linarith) hden
    have h2 := mul_lt_mul_of_neg_right hij' hd
    show a + (j : ℚ) * (b - a) / _ < a + (i : ℚ) * (b - a) / _
    rw [mul_div_assoc, mul_div_assoc]
    linarith

/-! ### Facts about the nodata substitution and the resampler shape -/

/-- Substitution keeps the number of rows. -/
theorem replaceNodata_length (e : List (List FVal)) (nd : Option FVal) :
    (replaceNodata e nd).length = e.length := by
  cases nd <;> simp [replaceNodata]

/-- Without an effective nodata value every cell is kept. -/
theorem replaceNodata_none (e : List (List FVal)) :
    replaceNodata e none = e.map (fun row => row.map some) := rfl

/-- When no cell is close to the nodata value, substitution keeps every
cell. -/
theorem replaceNodata_of_not_close {e : List (List FVal)} {nd : FVal}
    (h : ∀ row ∈ e, ∀ c ∈ row, npIsclose c nd = false) :
    replaceNodata e (some nd) = e.map (fun row => row.map some) := by
  simp only [replaceNodata]
  refine List.map_congr_left ?_
  intro row hrow
  refine List.map_congr_left ?_
  intro v hv
  simp [h row hrow v hv]

/-- Substitution against a NaN nodata value keeps every cell. -/
theorem replaceNodata_nan (e : List (List FVal)) :
    replaceNodata e (some FVal.nan) = e.map (fun row => row.map some) :=
  replaceNodata_of_not_close (fun _ _ c _ => npIsclose_nan c)

/-- The resampled band has the requested number of rows. -/
theorem resampleBand_length (band : List (List FVal)) (w h nx ny : ℕ) :
    (resampleBand band w h nx ny).length = ny := by
  simp [resampleBand]

/-- Every row of the resampled band has the requested number of columns. -/
theorem resampleBand_row_length (band : List (List FVal)) (w h nx ny : ℕ) :
    ∀ row ∈ resampleBand band w h nx ny, row.length = nx := by
  intro row hrow
  rcases List.mem_map.1 hrow with ⟨i, _, rfl⟩
  simp

/-! ### The index mapping fixes grid points exactly -/

/-- Resampling an axis to its own size maps every output index to the same
source index. -/
theorem srcPos_self {n j : ℕ} (hj : j < n) : srcPos n n j = (j : ℚ) := by
  unfold srcPos
  split
  · rename_i h
    have hj0 : j = 0 := by omega
    simp [hj0]
  · rename_i h
    have h2 : 2 ≤ n := by omega
    have hne : ((n : ℚ) - 1) ≠ 0 := by
      have h2' : (2 : ℚ) ≤ (n : ℚ) := by exact_mod_cast h2
      linarith
    rw [mul_div_assoc, div_self hne, mul_one]

/-- Cell lookup with in-range indices is plain list indexing. -/
theorem getCell_eq {band : List (List FVal)} {i j : ℕ} (hi : i < band.length)
    (hj : j < (band[i]).length) : getCell band i j = (band[i])[j] := by
  unfold getCell
  have h1 : band.getD i [] = band[i] := by
    rw [List.getD_eq_getElem?_getD, List.getElem?_eq_getElem hi]
    rfl
  rw [h1, List.getD_eq_getElem?_getD, List.getElem?_eq_getElem hj]
  rfl

/-- In-range cells of an all-finite well-shaped band are finite. -/
theorem getCell_fin {band : List (List FVal)} {w h : ℕ}
    (hlen : band.length = h) (hrow : ∀ row ∈ band, row.length = w)
    (hfin : ∀ row ∈ band, ∀ c ∈ row, ∃ q, c = FVal.fin q)
    {i j : ℕ} (hi : i < h) (hj : j < w) :
    ∃ q, getCell band i j = FVal.fin q := by
  have hi' : i < band.length := by omega
  have hmem : band[i] ∈ band := List.getElem_mem hi'
  have hj' : j < (band[i]).length := by rw [hrow _ hmem]; exact hj
  have hcmem : (band[i])[j] ∈ band[i] := List.getElem_mem hj'
  rw [getCell_eq hi' hj']
  exact hfin _ hmem _ hcmem

/-- Bilinear interpolation at an exact grid position returns the sample at
that position, provided the involved samples are finite. -/
theorem bilinearAt_int {band : List (List FVal)} {w h : ℕ}
    (hlen : band.length = h) (hrow : ∀ row ∈ band, row.length = w)
    (hfin : ∀ row ∈ band, ∀ c ∈ row, ∃ q, c = FVal.fin q)
    {i j : ℕ} (hi : i < h) (hj : j < w) :
    bilinearAt band w h (j : ℚ) (i : ℚ) = getCell band i j := by
  have hx0 : min (Int.toNat ⌊(j : ℚ)⌋) (w - 1) = j := by
    rw [Int.floor_natCast, Int.toNat_ofNat]
    omega
  have hy0 : min (Int.toNat ⌊(i : ℚ)⌋) (h - 1) = i := by
    rw [Int.floor_natCast, Int.toNat_ofNat]
    omega
  have hx1 : min (j + 1) (w - 1) < w := by omega
  have hy1 : min (i + 1) (h - 1) < h := by omega
  simp only [bilinearAt, hx0, hy0]
  simp only [sub_self]
  obtain ⟨q00, e00⟩ := getCell_fin hlen hrow hfin hi hj
  obtain ⟨q01, e01⟩ := getCell_fin hlen hrow hfin hi hx1
  obtain ⟨q10, e10⟩ := getCell_fin hlen hrow hfin hy1 hj
  obtain ⟨q11, e11⟩ := getCell_fin hlen hrow hfin hy1 hx1
  rw [e00, e01, e10, e11, fvLerp_zero, fvLerp_zero, fvLerp_zero, ← e00]

/-- Resampling a well-shaped all-finite band to its own shape reproduces
the band exactly. -/
theorem resampleBand_self {band : List (List FVal)} {w h : ℕ}
    (hlen : band.length = h) (hrow : ∀ row ∈ band, row.length = w)
    (hfin : ∀ row ∈ band, ∀ c ∈ row, ∃ q, c = FVal.fin q) :
    resampleBand band w h w h = band := by
  apply List.ext_getElem
  · simp [resampleBand, hlen]
  · intro i h1 h2
    have hi : i < h := by simpa [resampleBand] using h1
    simp only [resampleBand, List.getElem_map, List.getElem_range]
    apply List.ext_getElem
    · simp [hrow _ (List.getElem_mem h2)]
    · intro j h3 h4
      have hj : j < w := by simpa using h3
      simp only [List.getElem_map, List.getElem_range]
      rw [srcPos_self hj, srcPos_self hi, bilinearAt_int hlen hrow hfin hi hj,
        getCell_eq h2 h4]

/-! ### Concrete fixtures -/

/-- A concrete 1 by 1 source raster holding the single value 5, bounds
(0, 0, 1, 1), no embedded nodata. -/
def tinySrc : SourceRaster :=
  { band := [[FVal.fin 5]], width := 1, height := 1,
    left := 0, bottom := 0, right := 1, top := 1, nodata := none }

/-- A concrete source raster with no samples at all. -/
def emptySrc : SourceRaster :=
  { band := [], width := 0, height := 0,
    left := 0, bottom := 0, right := 1, top := 1, nodata := none }

/-- A concrete 1 by 1 source raster holding a NaN sample. -/
def nanSrc : SourceRaster :=
  { band := [[FVal.nan]], width := 1, height := 1,
    left := 0, bottom := 0, right := 1, top := 1, nodata := none }

/-- The 2 by 2 scenario raster of the spec: values 10, 20 over 30, 40 on
the unit square, no nodata. -/
def scenSrc : SourceRaster :=
  { band := [[FVal.fin 10, FVal.fin 20], [FVal.fin 30, FVal.fin 40]],
    width := 2, height := 2, left := 0, bottom := 0, right := 1, top := 1,
    nodata := none }

/-- Evaluation: the run on tinySrc with shape 1 x 1 and a nodata override
equal to its sample replaces the single cell by the missing marker. -/
theorem runTinyOverride : demMain tinySrc 1 1 (some (FVal.fin 5)) = Except.ok
    { bbox := (0, 0, 1, 1), ncols := 1, nrows := 1,
      lons := [0], lats := [1], elev := [[none]] } := by
  rw [demMain_ok_shape tinySrc 1 1 (some (FVal.fin 5)) (by decide) (by decide)]
  simp only [tinySrc]
  norm_num [linspace, resampleBand, List.range_succ, srcPos, bilinearAt, getCell,
    fvLerp, fvAdd, fvSmul, replaceNodata, effectiveNodata, npIsclose, npAtol, npRtol]

/-- Evaluation: the run on tinySrc with shape 2 x 2 and no override keeps
every cell. -/
theorem runTiny22 : demMain tinySrc 2 2 none = Except.ok
    { bbox := (0, 0, 1, 1), ncols := 2, nrows := 2,
      lons := [0, 1], lats := [1, 0],
      elev := [[some (FVal.fin 5), some (FVal.fin 5)],
               [some (FVal.fin 5), some (FVal.fin 5)]] } := by
  rw [demMain_ok_shape tinySrc 2 2 none (by decide) (by decide)]
  simp only [tinySrc]
  norm_num [linspace, resampleBand, List.range_succ, srcPos, bilinearAt, getCell,
    fvLerp, fvAdd, fvSmul, replaceNodata, effectiveNodata]

/-- Evaluation: the run on tinySrc with a single requested column. -/
theorem runTiny12 : demMain tinySrc 1 2 none = Except.ok
    { bbox := (0, 0, 1, 1), ncols := 1, nrows := 2,
      lons := [0], lats := [1, 0],
      elev := [[some (FVal.fin 5)], [some (FVal.fin 5)]] } := by
  rw [demMain_ok_shape tinySrc 1 2 none (by decide) (by decide)]
  simp only [tinySrc]
  norm_num [linspace, resampleBand, List.range_succ, srcPos, bilinearAt, getCell,
    fvLerp, fvAdd, fvSmul, replaceNodata, effectiveNodata]

/-- Evaluation: the run on tinySrc with a single requested row. -/
theorem runTiny21 : demMain tinySrc 2 1 none = Except.ok
    { bbox := (0, 0, 1, 1), ncols := 2, nrows := 1,
      lons := [0, 1], lats := [1],
      elev := [[some (FVal.fin 5), some (FVal.fin 5)]] } := by
  rw [demMain_ok_shape tinySrc 2 1 none (by decide) (by decide)]
  simp only [tinySrc]
  norm_num [linspace, resampleBand, List.range_succ, srcPos, bilinearAt, getCell,
    fvLerp, fvAdd, fvSmul, replaceNodata, effectiveNodata]

/-- Evaluation: the run on nanSrc with a NaN nodata override keeps the NaN
cell unchanged. -/
theorem runNan : demMain nanSrc 1 1 (some FVal.nan) = Except.ok
    { bbox := (0, 0, 1, 1), ncols := 1, nrows := 1,
      lons := [0], lats := [1], elev := [[some FVal.nan]] } := by
  rw [demMain_ok_shape nanSrc 1 1 (some FVal.nan) (by decide) (by decide)]
  simp only [nanSrc]
  norm_num [linspace, resampleBand, List.range_succ, srcPos, bilinearAt, getCell,
    fvLerp, fvAdd, fvSmul, replaceNodata, effectiveNodata, npIsclose]

/-- Evaluation: resampling the scenario raster to 3 x 3. -/
theorem scenResample :
    resampleBand [[FVal.fin 10, FVal.fin 20], [FVal.fin 30, FVal.fin 40]] 2 2 3 3 =
    [[FVal.fin 10, FVal.fin 15, FVal.fin 20],
     [FVal.fin 20, FVal.fin 25, FVal.fin 30],
     [FVal.fin 30, FVal.fin 35, FVal.fin 40]] := by
  simp only [resampleBand, List.range_succ, List.range_zero, List.map_nil,
    List.map_append, List.map_cons, List.nil_append, List.cons_append]
  norm_num [srcPos, bilinearAt, getCell, fvLerp, fvAdd, fvSmul]

/-! ### Claim theorems -/

/-- Every cell surviving substitution is not close to the nodata value. -/
theorem replaceNodata_cell {e : List (List FVal)} {nd : FVal}
    {row : List (Option FVal)} (hrow : row ∈ replaceNodata e (some nd))
    {c : Option FVal} (hc : c ∈ row) :
    c = none ∨ ∃ x, c = some x ∧ npIsclose x nd = false := by
  simp only [replaceNodata] at hrow
  rcases List.mem_map.1 hrow with ⟨row0, _, rfl⟩
  rcases List.mem_map.1 hc with ⟨v, hv, rfl⟩
  by_cases h : npIsclose v nd
  · left
    simp [h]
  · right
    exact ⟨v, by simp [h], by simpa using h⟩

/-- Claim C1: in every run with an effective nodata value, every cell of
the output elev array that is numerically close to that value has been
replaced by the missing marker, so every remaining cell is not close to
nodata and in particular no cell equals a finite nodata sentinel. -/
theorem c1_nodata_never_leaks (src : SourceRaster) (nx ny : ℕ) (ov : Option FVal)
    (nd : FVal) (out : GridOutput)
    (hok : demMain src nx ny ov = Except.ok out)
    (hnd : effectiveNodata ov src.nodata = some nd) :
    ∀ row ∈ out.elev, ∀ c ∈ row,
      (c = none ∨ ∃ x, c = some x ∧ npIsclose x nd = false) ∧
      (∀ v : ℚ, nd = FVal.fin v → c ≠ some (FVal.fin v)) := by
  have helev : out.elev = replaceNodata
      (resampleBand src.band src.width src.height nx ny)
      (effectiveNodata ov src.nodata) := by rw [demMain_ok_inv hok]
  rw [hnd] at helev
  intro row hrow c hc
  rw [helev] at hrow
  have hmain := replaceNodata_cell hrow hc
  refine ⟨hmain, ?_⟩
  intro v hv hcontra
  subst hv
  rcases hmain with h | ⟨x, hx, hxf⟩
  · simp [h] at hcontra
  · have hxe : some x = some (FVal.fin v) := by rw [← hx, hcontra]
    have hxv : x = FVal.fin v := Option.some.inj hxe
    subst hxv
    simp [npIsclose_self] at hxf

/-- Witness for C1 at a concrete run: a 1 by 1 raster holding 5 with
nodata override 5 produces an elev array holding only the marker, and the
marker cell does not equal the sentinel. -/
theorem c1_nodata_never_leaks_witness :
    ((none : Option FVal) = none ∨
      ∃ x, (none : Option FVal) = some x ∧ npIsclose x (FVal.fin 5) = false) ∧
    (none : Option FVal) ≠ some (FVal.fin 5) := by
  have h := c1_nodata_never_leaks tinySrc 1 1 (some (FVal.fin 5)) (FVal.fin 5)
    { bbox := (0, 0, 1, 1), ncols := 1, nrows := 1,
      lons := [0], lats := [1], elev := [[none]] }
    runTinyOverride rfl
  exact ⟨(h [none] (by simp) none (by simp)).1,
         (h [none] (by simp) none (by simp)).2 5 rfl⟩

/-- Claim C2: for a proper bounding box and at least two requested columns
and rows, lons is strictly increasing from left to right, lats strictly
decreasing from top to bottom, with evenly spaced intermediate points. -/
theorem c2_axes_monotone_evenly_spaced (src : SourceRaster) (nx ny : ℕ)
    (ov : Option FVal) (out : GridOutput)
    (hok : demMain src nx ny ov = Except.ok out)
    (hlr : src.left < src.right) (hbt : src.bottom < src.top)
    (hnx : 2 ≤ nx) (hny : 2 ≤ ny) :
    List.Pairwise (· < ·) out.lons ∧ List.Pairwise (· > ·) out.lats ∧
    out.lons[0]? = some src.left ∧ out.lons[nx - 1]? = some src.right ∧
    out.lats[0]? = some src.top ∧ out.lats[ny - 1]? = some src.bottom ∧
    (∀ j < nx, out.lons[j]? =
      some (src.left + (j : ℚ) * (src.right - src.left) / ((nx : ℚ) - 1))) ∧
    (∀ i < ny, out.lats[i]? =
      some (src.top - (i : ℚ) * (src.top - src.bottom) / ((ny : ℚ) - 1))) := by
  have hshape := demMain_ok_inv hok
  have hlons : out.lons = linspace src.left src.right nx := by rw [hshape]
  have hlats : out.lats = linspace src.top src.bottom ny := by rw [hshape]
  rw [hlons, hlats]
  refine ⟨linspace_pairwise_lt _ _ _ hlr, linspace_pairwise_gt _ _ _ hbt,
    linspace_head _ _ hnx, linspace_last _ _ hnx, linspace_head _ _ hny,
    linspace_last _ _ hny, ?_, ?_⟩
  · intro j hj
    exact linspace_getElem _ _ hnx hj
  · intro i hi
    rw [linspace_getElem _ _ hny hi]
    congr 1
    ring

/-- Witness for C2 at a concrete run with shape 2 x 2 on the unit square:
the axes are strictly monotone. -/
theorem c2_axes_monotone_evenly_spaced_witness :
    List.Pairwise (· < ·) ([0, 1] : List ℚ) ∧
    List.Pairwise (· > ·) ([1, 0] : List ℚ) := by
  have h := c2_axes_monotone_evenly_spaced tinySrc 2 2 none
    { bbox := (0, 0, 1, 1), ncols := 2, nrows := 2,
      lons := [0, 1], lats := [1, 0],
      elev := [[some (FVal.fin 5), some (FVal.fin 5)],
               [some (FVal.fin 5), some (FVal.fin 5)]] }
    runTiny22 (by norm_num [tinySrc]) (by norm_num [tinySrc])
    (by norm_num) (by norm_num)
  exact ⟨h.1, h.2.1⟩

/-- Claim C3 counterexample: requesting zero columns does not fail at all;
the run succeeds and produces an output document with empty lons and
zero-length elev rows, so no InvalidDimension condition is raised and an
output document is written. -/
theorem c3_counterexample : demMain tinySrc 0 1 none = Except.ok
    { bbox := (0, 0, 1, 1), ncols := 0, nrows := 1,
      lons := [], lats := [1], elev := [[]] } := by
  rw [demMain_ok_shape tinySrc 0 1 none (by decide) (by decide)]
  simp only [tinySrc]
  norm_num [linspace, resampleBand, List.range_succ, replaceNodata, effectiveNodata]

/-- Claim C3 as amended: the script performs no dimension validation, so a
run never produces an InvalidDimension condition: it either succeeds (for
any requested shape, including zero) or fails only because the external
reader cannot read an empty source. -/
theorem c3_no_dimension_validation (src : SourceRaster) (nx ny : ℕ)
    (ov : Option FVal) :
    demMain src nx ny ov = Except.error DemError.sourceUnreadable ∨
    ∃ out, demMain src nx ny ov = Except.ok out := by
  by_cases h : src.width = 0 ∨ src.height = 0
  · left
    simp [demMain, readBilinear, h]
  · right
    exact ⟨_, demMain_ok_shape src nx ny ov (by tauto) (by tauto)⟩

/-- Claim C4: the caller override takes precedence over the embedded
nodata value; without an override the embedded value is used; and when
neither is present no substitution occurs: the elev array is exactly the
resampled band with every cell kept. -/
theorem c4_nodata_precedence (src : SourceRaster) (nx ny : ℕ) (v : FVal)
    (out : GridOutput) :
    effectiveNodata (some v) src.nodata = some v ∧
    effectiveNodata none src.nodata = src.nodata ∧
    (demMain src nx ny none = Except.ok out → src.nodata = none →
      out.elev = (resampleBand src.band src.width src.height nx ny).map
        (fun row => row.map some)) := by
  refine ⟨rfl, rfl, ?_⟩
  intro hok hnone
  have helev : out.elev = replaceNodata
      (resampleBand src.band src.width src.height nx ny)
      (effectiveNodata none src.nodata) := by rw [demMain_ok_inv hok]
  rw [helev]
  show replaceNodata _ src.nodata = _
  rw [hnone, replaceNodata_none]

/-- Witness for C4 at a concrete run with no override and no embedded
nodata: every cell of the output is kept. -/
theorem c4_nodata_precedence_witness :
    effectiveNodata (some (FVal.fin 7)) tinySrc.nodata = some (FVal.fin 7) ∧
    effectiveNodata none tinySrc.nodata = tinySrc.nodata ∧
    ([[some (FVal.fin 5), some (FVal.fin 5)],
      [some (FVal.fin 5), some (FVal.fin 5)]] : List (List (Option FVal))) =
      (resampleBand tinySrc.band tinySrc.width tinySrc.height 2 2).map
        (fun row => row.map some) := by
  have h := c4_nodata_precedence tinySrc 2 2 (FVal.fin 7)
    { bbox := (0, 0, 1, 1), ncols := 2, nrows := 2,
      lons := [0, 1], lats := [1, 0],
      elev := [[some (FVal.fin 5), some (FVal.fin 5)],
               [some (FVal.fin 5), some (FVal.fin 5)]] }
  exact ⟨h.1, h.2.1, h.2.2 runTiny22 rfl⟩

/-- Claim C5: the 2 by 2 scenario raster resampled to 3 by 3 yields
lons 0, 1/2, 1 and lats 1, 1/2, 0, the center cell is the bilinear average
25 of the four corners, and the corner cells keep the original values. -/
theorem c5_scenario_2x2_to_3x3 : demMain scenSrc 3 3 none = Except.ok
    { bbox := (0, 0, 1, 1), ncols := 3, nrows := 3,
      lons := [0, 1/2, 1], lats := [1, 1/2, 0],
      elev := [[some (FVal.fin 10), some (FVal.fin 15), some (FVal.fin 20)],
               [some (FVal.fin 20), some (FVal.fin 25), some (FVal.fin 30)],
               [some (FVal.fin 30), some (FVal.fin 35), some (FVal.fin 40)]] } := by
  rw [demMain_ok_shape scenSrc 3 3 none (by decide) (by decide)]
  simp only [scenSrc]
  rw [scenResample]
  norm_num [linspace, List.range_succ, replaceNodata, effectiveNodata]

/-- Claim C6: a source raster with no nodata values, resampled to its own
exact dimensions, reproduces the original sample values exactly. -/
theorem c6_identity_resampling (src : SourceRaster)
    (hwf : WFSourceRaster src) (hw : 1 ≤ src.width) (hh : 1 ≤ src.height)
    (hfin : ∀ row ∈ src.band, ∀ c ∈ row, ∃ q, c = FVal.fin q)
    (hnod : ∀ row ∈ src.band, ∀ c ∈ row, ∀ nd, src.nodata = some nd →
      npIsclose c nd = false) :
    demMain src src.width src.height none = Except.ok
      { bbox := (src.left, src.bottom, src.right, src.top)
        ncols := src.width
        nrows := src.height
        lons := linspace src.left src.right src.width
        lats := linspace src.top src.bottom src.height
        elev := src.band.map (fun row => row.map some) } := by
  obtain ⟨hlen, hrowlen⟩ := hwf
  have helev : replaceNodata
      (resampleBand src.band src.width src.height src.width src.height)
      (effectiveNodata none src.nodata) = src.band.map (fun row => row.map some) := by
    rw [resampleBand_self hlen hrowlen hfin]
    show replaceNodata src.band src.nodata = _
    cases hsn : src.nodata with
    | none => exact replaceNodata_none src.band
    | some nd =>
      refine replaceNodata_of_not_close ?_
      intro row hr c hc
      exact hnod row hr c hc nd hsn
  rw [demMain_ok_shape src src.width src.height none (by omega) (by omega), helev]

/-- Witness for C6 at a concrete 1 by 1 run. -/
theorem c6_identity_resampling_witness :
    demMain tinySrc 1 1 none = Except.ok
      { bbox := (0, 0, 1, 1), ncols := 1, nrows := 1,
        lons := [0], lats := [1], elev := [[some (FVal.fin 5)]] } := by
  have h := c6_identity_resampling tinySrc
    ⟨rfl, by
      intro row hr
      simp only [tinySrc, List.mem_singleton] at hr
      simp [hr, tinySrc]⟩
    (by decide) (by decide)
    (by
      intro row hr c hc
      simp only [tinySrc, List.mem_singleton] at hr
      subst hr
      simp only [List.mem_singleton] at hc
      exact ⟨5, hc⟩)
    (by
      intro row hr c hc nd hnd
      simp [tinySrc] at hnd)
  exact h

/-- Claim C7 counterexample: a source with no samples does not surface an
EmptySource condition; the failure is the external reader failure,
propagated unchanged. -/
theorem c7_counterexample :
    demMain emptySrc 2 2 none = Except.error DemError.sourceUnreadable ∧
    DemError.sourceUnreadable ≠ DemError.emptySource := by
  constructor
  · simp [demMain, readBilinear, emptySrc]
  · decide

/-- Claim C7 as amended: the script has no emptiness check of its own; a
source with zero width or height makes the run abort with the external
reader failure (SourceUnreadable), propagated unchanged, and no output
document is produced. -/
theorem c7_empty_source_is_reader_failure (src : SourceRaster) (nx ny : ℕ)
    (ov : Option FVal) (h : src.width = 0 ∨ src.height = 0) :
    demMain src nx ny ov = Except.error DemError.sourceUnreadable := by
  simp [demMain, readBilinear, h]

/-- Witness for the amended C7 at a concrete empty source. -/
theorem c7_empty_source_is_reader_failure_witness :
    demMain emptySrc 3 3 none = Except.error DemError.sourceUnreadable :=
  c7_empty_source_is_reader_failure emptySrc 3 3 none (Or.inl rfl)

/-- Rows of the substituted array keep the lengths of the underlying
rows. -/
theorem replaceNodata_row_length {e : List (List FVal)} {nd : Option FVal}
    {row : List (Option FVal)} (hrow : row ∈ replaceNodata e nd) :
    ∃ row0 ∈ e, row.length = row0.length := by
  cases nd with
  | none =>
    rcases List.mem_map.1 hrow with ⟨row0, h0, rfl⟩
    exact ⟨row0, h0, by simp⟩
  | some v =>
    rcases List.mem_map.1 hrow with ⟨row0, h0, rfl⟩
    exact ⟨row0, h0, by simp⟩

/-- Claim C8: every successful run returns ncols longitudes, nrows
latitudes, and an elev array of nrows rows each of ncols cells. -/
theorem c8_output_shape (src : SourceRaster) (nx ny : ℕ) (ov : Option FVal)
    (out : GridOutput) (hok : demMain src nx ny ov = Except.ok out) :
    out.lons.length = nx ∧ out.lats.length = ny ∧ out.elev.length = ny ∧
    ∀ row ∈ out.elev, row.length = nx := by
  have hshape := demMain_ok_inv hok
  have hlons : out.lons = linspace src.left src.right nx := by rw [hshape]
  have hlats : out.lats = linspace src.top src.bottom ny := by rw [hshape]
  have helev : out.elev = replaceNodata
      (resampleBand src.band src.width src.height nx ny)
      (effectiveNodata ov src.nodata) := by rw [hshape]
  refine ⟨by rw [hlons]; exact linspace_length _ _ _,
          by rw [hlats]; exact linspace_length _ _ _,
          by rw [helev, replaceNodata_length, resampleBand_length], ?_⟩
  intro row hrow
  rw [helev] at hrow
  obtain ⟨row0, h0, hlen0⟩ := replaceNodata_row_length hrow
  rw [hlen0]
  exact resampleBand_row_length src.band src.width src.height nx ny row0 h0

/-- Witness for C8 at a concrete 2 x 2 run. -/
theorem c8_output_shape_witness :
    ([0, 1] : List ℚ).length = 2 ∧ ([1, 0] : List ℚ).length = 2 ∧
    ([[some (FVal.fin 5), some (FVal.fin 5)],
      [some (FVal.fin 5), some (FVal.fin 5)]] : List (List (Option FVal))).length = 2 ∧
    ([some (FVal.fin 5), some (FVal.fin 5)] : List (Option FVal)).length = 2 := by
  have h := c8_output_shape tinySrc 2 2 none
    { bbox := (0, 0, 1, 1), ncols := 2, nrows := 2,
      lons := [0, 1], lats := [1, 0],
      elev := [[some (FVal.fin 5), some (FVal.fin 5)],
               [some (FVal.fin 5), some (FVal.fin 5)]] }
    runTiny22
  exact ⟨h.1, h.2.1, h.2.2.1,
         h.2.2.2 [some (FVal.fin 5), some (FVal.fin 5)] (by simp)⟩

/-- Claim C9: with a single requested column, lons is exactly the left
bound; with a single requested row, lats is exactly the top bound. -/
theorem c9_single_point_axes (src : SourceRaster) (nx ny : ℕ) (ov : Option FVal)
    (out out' : GridOutput) :
    (demMain src 1 ny ov = Except.ok out → out.lons = [src.left]) ∧
    (demMain src nx 1 ov = Except.ok out' → out'.lats = [src.top]) := by
  constructor
  · intro hok
    have hlons : out.lons = linspace src.left src.right 1 := by
      rw [demMain_ok_inv hok]
    rw [hlons]
    rfl
  · intro hok
    have hlats : out'.lats = linspace src.top src.bottom 1 := by
      rw [demMain_ok_inv hok]
    rw [hlats]
    rfl

/-- Witness for C9 at concrete runs with one column and with one row. -/
theorem c9_single_point_axes_witness :
    ({ bbox := (0, 0, 1, 1), ncols := 1, nrows := 2, lons := [0], lats := [1, 0],
       elev := [[some (FVal.fin 5)], [some (FVal.fin 5)]] } : GridOutput).lons
      = [tinySrc.left] ∧
    ({ bbox := (0, 0, 1, 1), ncols := 2, nrows := 1, lons := [0, 1], lats := [1],
       elev := [[some (FVal.fin 5), some (FVal.fin 5)]] } : GridOutput).lats
      = [tinySrc.top] := by
  have h := c9_single_point_axes tinySrc 2 2 none
    { bbox := (0, 0, 1, 1), ncols := 1, nrows := 2, lons := [0], lats := [1, 0],
      elev := [[some (FVal.fin 5)], [some (FVal.fin 5)]] }
    { bbox := (0, 0, 1, 1), ncols := 2, nrows := 1, lons := [0, 1], lats := [1],
      elev := [[some (FVal.fin 5), some (FVal.fin 5)]] }
  exact ⟨h.1 runTiny12, h.2 runTiny21⟩

/-- Claim C10: when the effective nodata value is NaN, the substitution
replaces no cell at all: the output elev is the resampled band with every
cell kept, NaN cells included. -/
theorem c10_nan_nodata_never_substitutes (src : SourceRaster) (nx ny : ℕ)
    (ov : Option FVal) (out : GridOutput)
    (hok : demMain src nx ny ov = Except.ok out)
    (hnan : effectiveNodata ov src.nodata = some FVal.nan) :
    out.elev = (resampleBand src.band src.width src.height nx ny).map
      (fun row => row.map some) := by
  have helev : out.elev = replaceNodata
      (resampleBand src.band src.width src.height nx ny)
      (effectiveNodata ov src.nodata) := by rw [demMain_ok_inv hok]
  rw [helev, hnan, replaceNodata_nan]

/-- Witness for C10 at a concrete run on a NaN sample with NaN override:
the NaN cell is kept, not replaced by the marker. -/
theorem c10_nan_nodata_never_substitutes_witness :
    ([[some FVal.nan]] : List (List (Option FVal))) =
      (resampleBand nanSrc.band nanSrc.width nanSrc.height 1 1).map
        (fun row => row.map some) :=
  c10_nan_nodata_never_substitutes nanSrc 1 1 (some FVal.nan)
    { bbox := (0, 0, 1, 1), ncols := 1, nrows := 1, lons := [0], lats := [1],
      elev := [[some FVal.nan]] }
    runNan rfl
